import Mathlib

/-!
# Verification of the retry/backoff and batch-fanout core of mcp-web-tools

Shallow embedding of:
* `src/src/utils/retry.ts` — `withRetry` and `isFatalError`;
* `src/tools/web-page.ts` (`webPageTool`) and the download tool
  (`downloadFilesTool`) — the per-item batching, error aggregation and the
  directory-traversal check of the download tool.

Asynchronous effects are determinized: the outcome of the `k`-th invocation
of the wrapped operation is a function `Nat → Except _ _`, and each draw of
`Math.random()` is a function `Nat → ℚ` indexed by the failure ordinal.
The embedding records, besides the final outcome, the number of invocations
of the operation and the list of backoff delays that were awaited, so that
call-count and timing claims become statements about an explicit trace.
-/

set_option autoImplicit false

namespace McpWebTools

/-- Model of the JavaScript values thrown as errors, as far as
`isFatalError` (src/src/utils/retry.ts, lines 41–56) inspects them:
* `nonObject`: a thrown value that is not an object, or is `null`
  (strings, numbers, `undefined`, …) — the statusCode-membership guard fails;
* `objNoStatus`: an object without a `statusCode` property;
* `objStatusUndefined`: an object whose `statusCode` property is `undefined`;
* `objStatus code`: an object whose `statusCode` property is the number
  `code` (the TypeScript type at the cast site is `{ statusCode?: number }`). -/
inductive ErrVal : Type where
  | nonObject : ErrVal
  | objNoStatus : ErrVal
  | objStatusUndefined : ErrVal
  | objStatus (code : Int) : ErrVal
deriving DecidableEq, Repr

/-- Function `isFatalError` from src/src/utils/retry.ts lines 41–56: an error is fatal
iff it is an object carrying a defined numeric `statusCode` with
`statusCode >= 400 && statusCode < 500 && statusCode !== 429`. -/
def isFatalError : ErrVal → Bool
  | ErrVal.objStatus code => decide (400 ≤ code ∧ code < 500 ∧ code ≠ 429)
  | _ => false

/-- The observable trace of one `withRetry` execution:
* `result`: the settled outcome — `Except.ok v` for a resolved promise,
  `Except.error (some e)` for a rejection with the JS value `e`, and
  `Except.error none` for a rejection with `undefined` (the uninitialized
  `lastError` variable when the loop body never ran);
* `calls`: how many times the wrapped operation `fn` was invoked;
* `delays`: the backoff delays (in milliseconds, as exact rationals) awaited
  via `setTimeout`, in chronological order. -/
structure RetryResult (V : Type) where
  result : Except (Option ErrVal) V
  calls : Nat
  delays : List ℚ
deriving Repr

/-- The `while (attempt < maxRetries)` loop of `withRetry`
(src/src/utils/retry.ts lines 16–32), written with the loop counter split
into the current `attempt` value and the remaining iteration budget
`remaining = maxRetries - attempt` (the guard `attempt < maxRetries` holds
exactly when `remaining > 0`, and `attempt` increases by one on every failed
call, so the budget counts down structurally).  Body, as in the source:
invoke `fn`; on success return its value; on failure record it as
`lastError`, increment `attempt`, stop if `isFatalError`, otherwise await
`retryDelay * 2 ^ attempt * (0.5 + Math.random())` and loop.  After the
loop, `throw lastError`. -/
def withRetryLoop {V : Type} (fn : Nat → Except ErrVal V) (retryDelay : ℚ)
    (rand : Nat → ℚ) : Nat → Nat → Option ErrVal → List ℚ → RetryResult V
  | 0, attempt, lastError, delays =>
      { result := Except.error lastError, calls := attempt,
        delays := delays.reverse }
  | remaining + 1, attempt, _lastError, delays =>
      match fn attempt with
      | Except.ok v =>
          { result := Except.ok v, calls := attempt + 1,
            delays := delays.reverse }
      | Except.error e =>
          if isFatalError e then
            { result := Except.error (some e), calls := attempt + 1,
              delays := delays.reverse }
          else
            withRetryLoop fn retryDelay rand remaining (attempt + 1) (some e)
              (retryDelay * 2 ^ (attempt + 1) * (1 / 2 + rand attempt) :: delays)

/-- Function `withRetry(fn, maxRetries, retryDelay)` from src/src/utils/retry.ts
lines 8–35: run the loop from `attempt = 0` with `lastError` uninitialized
(`none`) and no delays awaited yet.  `rand k` is the value drawn by
`Math.random()` at the `k`-th failure (`k` counted from 0). -/
def withRetry {V : Type} (fn : Nat → Except ErrVal V) (maxRetries : Nat)
    (retryDelay : ℚ) (rand : Nat → ℚ) : RetryResult V :=
  withRetryLoop fn retryDelay rand maxRetries 0 none []

/-!
## Batch fan-out

Both batch tools build one task per input URL with `input.urls.map((url,
index) => limit(async () => { ... }))` and collect the settled values in
input order (`Promise.all` / `Promise.allSettled` preserve the index).
`runItems f i l` is that indexed map: the task for the `j`-th element of
`l` is `f (i + j) elem`.  The per-item body never rejects (it ends in a
`catch` returning a failure record), so the promise combinators return
exactly the list of per-item values.
-/

/-- Indexed map: one result per input, in input order. -/
def runItems {A B : Type} (f : Nat → A → B) : Nat → List A → List B
  | _, [] => []
  | i, a :: rest => f i a :: runItems f (i + 1) rest

/-! ### webPageTool (src/src/tools/web-page.ts lines 62–111) -/

/-- The `metadata` record of a `WebPageResult`. -/
structure PageMetadata where
  description : Option String
  keywords : Option String
  author : Option String
  publishDate : Option String
deriving DecidableEq, Repr

/-- Structure `WebPageResult` from src/src/tools/web-page.ts lines 47–60. -/
structure WebPageResult where
  url : String
  title : String
  content : String
  images : Option (List String)
  links : Option (List String)
  metadata : PageMetadata
  error : Option String
deriving DecidableEq, Repr

/-- The failure record built in the per-item `catch` of `webPageTool`
(lines 72–83): url, the title "Error", empty content, empty metadata, and
the error message.  `msg` is the final message string (the message field
for Error instances, else the stringified value, with a fallback to
"Unknown error occurred" when that is empty). -/
def webErrorEntry (url msg : String) : WebPageResult :=
  { url := url, title := "Error", content := "", images := none,
    links := none, metadata := ⟨none, none, none, none⟩, error := some msg }

/-- The ordered result list of `webPageTool` (lines 62–101).  `fetch i url`
is the settled outcome of `withRetry(() => fetchWebPage({...input, url}),
input.maxRetries, input.retryDelay)` for the `i`-th URL, treated as an
opaque asynchronous operation: `Except.ok` a page record, `Except.error`
the final error message.  Each task returns the fetched record or, from its
`catch`, a `webErrorEntry`; since no task rejects, the
`Promise.allSettled` pass (lines 87–101) returns these values unchanged in
input order. -/
def webPageResults (urls : List String)
    (fetch : Nat → String → Except String WebPageResult) : List WebPageResult :=
  runItems
    (fun i url =>
      match fetch i url with
      | Except.ok r => r
      | Except.error msg => webErrorEntry url msg)
    0 urls

/-! ### downloadFilesTool and its directory-traversal check

The download tool lives outside `src/src/tools` in the repository snapshot
(file `src/unnamed/part_003`).  `downloadFilesTool` (lines 277–365 there)
resolves the target directory, creates it, checks writability, validates
the `filenames` length, then fans out one task per URL.  Each task computes
the effective filename, joins it to the directory, re-resolves the joined
path and rejects it when `!resolvedFilepath.startsWith(resolvedDir)`;
otherwise it runs the download under `withRetry`.  A throw anywhere in the
task body is converted by the per-task `catch` into a failure record; a throw
in the setup phase is converted by the outer `catch` into a single-element
failure list.

Strings are compared character-wise: `strStartsWith` is JS
`String.prototype.startsWith`, and the path functions model the Node
`path.resolve` / `path.join` on absolute POSIX paths by normalizing the
`/`-separated components (`.` dropped, `..` popping one component, never
above the root).
-/

/-- Split a list of characters at `/`, keeping empty pieces. -/
def splitSlashAux : List Char → List Char → List (List Char)
  | [], acc => [acc.reverse]
  | c :: rest, acc =>
      if c = '/' then acc.reverse :: splitSlashAux rest []
      else splitSlashAux rest (c :: acc)

/-- The non-empty `/`-separated components of a path string. -/
def splitPath (s : String) : List String :=
  ((splitSlashAux s.toList []).map fun cs => String.mk cs).filter
    fun c => decide (c ≠ "")

/-- Node path normalization on components: `.` is dropped, `..` removes the
preceding component (and is a no-op at the root), everything else is kept. -/
def normalizeComponents (cs : List String) : List String :=
  cs.foldl
    (fun acc c =>
      if c = "." then acc
      else if c = ".." then acc.dropLast
      else acc ++ [c])
    []

/-- Join path components back into an absolute path string. -/
def joinComponents : List String → String
  | [] => ""
  | [c] => c
  | c :: rest => c ++ "/" ++ joinComponents rest

/-- Node `path.resolve` on an absolute POSIX path: normalize its
components and re-join them under the root. -/
def pathResolve (s : String) : String :=
  "/" ++ joinComponents (normalizeComponents (splitPath s))

/-- JS `String.prototype.startsWith`: character-wise prefix test.  This is
the exact comparison `resolvedFilepath.startsWith(resolvedDir)` performs —
a string prefix, not a path-component prefix. -/
def strStartsWith (s pre : String) : Bool :=
  List.isPrefixOf pre.toList s.toList

/-- The semantic escape test the check is meant to implement: the resolved
file path lies outside the resolved directory when the normalized component
list of the directory is not a component-wise prefix of that of the file
path. -/
def escapesDir (resolvedDir resolvedFilepath : String) : Bool :=
  ! List.isPrefixOf (normalizeComponents (splitPath resolvedDir))
      (normalizeComponents (splitPath resolvedFilepath))

/-- Structure `DownloadResult` from part_003 lines 259–266. -/
structure DownloadResult where
  url : String
  filepath : String
  filename : String
  size : Nat
  success : Bool
  error : Option String
deriving DecidableEq, Repr

/-- The effective filename of the `i`-th item (part_003 lines 302–303):
`input.filenames?.[index] || extractFilenameFromUrl(url)` — the custom name
is used unless `filenames` is absent, too short, or the entry is the empty
string (falsy), in which case `extractFilenameFromUrl` supplies a fallback.
`extractName` stands for `extractFilenameFromUrl` (opaque here: it depends
on URL parsing and `Date.now()`). -/
def effectiveFilename (filenames : Option (List String))
    (extractName : String → String) (i : Nat) (url : String) : String :=
  match filenames with
  | some fns =>
      match fns.get? i with
      | some s => if s = "" then extractName url else s
      | none => extractName url
  | none => extractName url

/-- The `filename` field of a failure record (part_003 line 323): the
custom filename at this index when present, else the empty string. -/
def catchFilename (filenames : Option (List String)) (i : Nat) : String :=
  match filenames with
  | some fns => (fns.get? i).getD ""
  | none => ""

/-- The per-item task body of `downloadFilesTool` (part_003 lines 300–329),
with its `try`/`catch` made explicit.  `download i url p` is the settled
outcome of `withRetry(() => downloadFile(url, p, input.timeout),
input.maxRetries, input.retryDelay)`, opaque here: `Except.ok` the
`DownloadResult` of a completed download, `Except.error` the final error
message.  When the joined path fails the `startsWith` check the body throws
`Invalid file path: ${filename} would escape directory`, which the same
`catch` converts into a failure record. -/
def downloadItem (resolvedDir : String) (filenames : Option (List String))
    (extractName : String → String)
    (download : Nat → String → String → Except String DownloadResult)
    (i : Nat) (url : String) : DownloadResult :=
  let filename := effectiveFilename filenames extractName i url
  let resolvedFilepath := pathResolve (resolvedDir ++ "/" ++ filename)
  if strStartsWith resolvedFilepath resolvedDir then
    match download i url resolvedFilepath with
    | Except.ok r => r
    | Except.error msg =>
        { url := url, filepath := "", filename := catchFilename filenames i,
          size := 0, success := false, error := some msg }
  else
    { url := url, filepath := "", filename := catchFilename filenames i,
      size := 0, success := false,
      error := some ("Invalid file path: " ++ filename ++
        " would escape directory") }

/-- The single-element failure list the outer `catch` of
`downloadFilesTool` produces (part_003 lines 342–364). -/
def outerFailure (msg : String) : DownloadResult :=
  { url := "", filepath := "", filename := "", size := 0, success := false,
    error := some msg }

/-- The ordered result list of `downloadFilesTool` (part_003 lines
277–365).  `directory` is the raw input; the tool resolves it first.
`dirSetup` is the settled outcome of `fs.mkdir` + `fs.access` on the
resolved directory (opaque file-system effects).  If setup throws, or
`filenames` is present with a length different from `urls` (note: an empty
`filenames` array is truthy-checked the same way), the outer `catch`
returns one `outerFailure`; otherwise one `downloadItem` per URL, in input
order, via `Promise.all` over the per-item tasks. -/
def downloadFilesResults (urls : List String)
    (filenames : Option (List String)) (directory : String)
    (extractName : String → String) (dirSetup : Except String Unit)
    (download : Nat → String → String → Except String DownloadResult) :
    List DownloadResult :=
  let resolvedDir := pathResolve directory
  match dirSetup with
  | Except.error msg => [outerFailure msg]
  | Except.ok _ =>
      match filenames with
      | some fns =>
          if fns.length = urls.length then
            runItems (downloadItem resolvedDir filenames extractName download)
              0 urls
          else
            [outerFailure "Filenames array must have the same length as URLs array"]
      | none =>
          runItems (downloadItem resolvedDir filenames extractName download)
            0 urls

/-!
## Loop lemmas for `withRetryLoop`
-/

lemma withRetryLoop_zero {V : Type} (fn : Nat → Except ErrVal V) (base : ℚ)
    (rand : Nat → ℚ) (attempt : Nat) (lastError : Option ErrVal)
    (acc : List ℚ) :
    withRetryLoop fn base rand 0 attempt lastError acc =
      { result := Except.error lastError, calls := attempt,
        delays := acc.reverse } := rfl

lemma withRetryLoop_succ {V : Type} (fn : Nat → Except ErrVal V) (base : ℚ)
    (rand : Nat → ℚ) (remaining attempt : Nat) (lastError : Option ErrVal)
    (acc : List ℚ) :
    withRetryLoop fn base rand (remaining + 1) attempt lastError acc =
      (match fn attempt with
      | Except.ok v =>
          { result := Except.ok v, calls := attempt + 1,
            delays := acc.reverse }
      | Except.error e =>
          if isFatalError e then
            { result := Except.error (some e), calls := attempt + 1,
              delays := acc.reverse }
          else
            withRetryLoop fn base rand remaining (attempt + 1) (some e)
              (base * 2 ^ (attempt + 1) * (1 / 2 + rand attempt) :: acc)) := rfl

/-- One loop iteration on a non-fatal failure: record the error, await the
jittered delay, continue. -/
lemma withRetryLoop_step_nonfatal {V : Type} {fn : Nat → Except ErrVal V}
    {base : ℚ} {rand : Nat → ℚ} {remaining attempt : Nat}
    {lastError : Option ErrVal} {acc : List ℚ} {e : ErrVal}
    (hfn : fn attempt = Except.error e) (hnf : isFatalError e = false) :
    withRetryLoop fn base rand (remaining + 1) attempt lastError acc =
      withRetryLoop fn base rand remaining (attempt + 1) (some e)
        (base * 2 ^ (attempt + 1) * (1 / 2 + rand attempt) :: acc) := by
  rw [withRetryLoop_succ, hfn]
  simp [hnf]

/-- One loop iteration on a fatal failure: stop at once, no delay. -/
lemma withRetryLoop_step_fatal {V : Type} {fn : Nat → Except ErrVal V}
    {base : ℚ} {rand : Nat → ℚ} {remaining attempt : Nat}
    {lastError : Option ErrVal} {acc : List ℚ} {e : ErrVal}
    (hfn : fn attempt = Except.error e) (hf : isFatalError e = true) :
    withRetryLoop fn base rand (remaining + 1) attempt lastError acc =
      { result := Except.error (some e), calls := attempt + 1,
        delays := acc.reverse } := by
  rw [withRetryLoop_succ, hfn]
  simp [hf]

/-- On an operation that fails non-fatally at every attempt, the loop uses
its whole budget: starting with budget `m + 1` after `attempt` earlier
calls, it makes `m + 1` further calls, ends with the error of the last one,
and awaits one more delay per call. -/
lemma withRetryLoop_allFail {V : Type} (err : Nat → ErrVal) (base : ℚ)
    (rand : Nat → ℚ) (hnf : ∀ k, isFatalError (err k) = false) :
    ∀ (m attempt : Nat) (lastError : Option ErrVal) (acc : List ℚ),
      (withRetryLoop (V := V) (fun k => Except.error (err k)) base rand
          (m + 1) attempt lastError acc).result =
        Except.error (some (err (attempt + m)))
      ∧ (withRetryLoop (V := V) (fun k => Except.error (err k)) base rand
          (m + 1) attempt lastError acc).calls = attempt + m + 1
      ∧ (withRetryLoop (V := V) (fun k => Except.error (err k)) base rand
          (m + 1) attempt lastError acc).delays.length =
        acc.length + (m + 1) := by
  intro m
  induction m with
  | zero =>
      intro attempt lastError acc
      rw [withRetryLoop_step_nonfatal rfl (hnf attempt), withRetryLoop_zero]
      simp
  | succ m ih =>
      intro attempt lastError acc
      rw [withRetryLoop_step_nonfatal rfl (hnf attempt)]
      obtain ⟨h₁, h₂, h₃⟩ := ih (attempt + 1) (some (err attempt))
        (base * 2 ^ (attempt + 1) * (1 / 2 + rand attempt) :: acc)
      refine ⟨?_, ?_, ?_⟩
      · rw [h₁]
        have h : attempt + 1 + m = attempt + (m + 1) := by omega
        rw [h]
      · rw [h₂]
        omega
      · rw [h₃]
        simp
        omega

/-- Every delay the loop appends beyond the accumulator has the exact
jittered-backoff shape: the `j`-th new delay (0-indexed) follows the
failure of attempt number `attempt + j + 1` and equals
`base * 2 ^ (attempt + 1 + j) * (1/2 + rand (attempt + j))`. -/
lemma withRetryLoop_delays {V : Type} (fn : Nat → Except ErrVal V) (base : ℚ)
    (rand : Nat → ℚ) :
    ∀ (remaining attempt : Nat) (lastError : Option ErrVal) (acc : List ℚ),
      ∃ tail : List ℚ,
        (withRetryLoop fn base rand remaining attempt lastError acc).delays =
          acc.reverse ++ tail
        ∧ ∀ j d, tail.get? j = some d →
            d = base * 2 ^ (attempt + 1 + j) * (1 / 2 + rand (attempt + j)) := by
  intro remaining
  induction remaining with
  | zero =>
      intro attempt lastError acc
      exact ⟨[], by simp [withRetryLoop_zero], by simp⟩
  | succ remaining ih =>
      intro attempt lastError acc
      cases hfn : fn attempt with
      | ok v =>
          refine ⟨[], ?_, by simp⟩
          rw [withRetryLoop_succ, hfn]
          simp
      | error e =>
          cases hf : isFatalError e with
          | true =>
              refine ⟨[], ?_, by simp⟩
              rw [withRetryLoop_step_fatal hfn hf]
              simp
          | false =>
              obtain ⟨tail, htail, hprop⟩ := ih (attempt + 1) (some e)
                (base * 2 ^ (attempt + 1) * (1 / 2 + rand attempt) :: acc)
              refine ⟨base * 2 ^ (attempt + 1) * (1 / 2 + rand attempt) :: tail,
                ?_, ?_⟩
              · rw [withRetryLoop_step_nonfatal hfn hf, htail]
                simp
              · intro j d hj
                cases j with
                | zero =>
                    simp at hj
                    simp [← hj]
                | succ j =>
                    simp only [List.get?] at hj
                    have h := hprop j d hj
                    rw [h]
                    have h₁ : attempt + 1 + 1 + j = attempt + 1 + (j + 1) := by
                      omega
                    have h₂ : attempt + 1 + j = attempt + (j + 1) := by omega
                    rw [h₁, h₂]

/-- Outcome, call count and number of delays of the loop do not depend on
the jitter draws: only the delay durations do. -/
lemma withRetryLoop_rand_irrel {V : Type} (fn : Nat → Except ErrVal V)
    (base : ℚ) (r₁ r₂ : Nat → ℚ) :
    ∀ (remaining attempt : Nat) (lastError : Option ErrVal)
      (acc₁ acc₂ : List ℚ), acc₁.length = acc₂.length →
      (withRetryLoop fn base r₁ remaining attempt lastError acc₁).result =
        (withRetryLoop fn base r₂ remaining attempt lastError acc₂).result
      ∧ (withRetryLoop fn base r₁ remaining attempt lastError acc₁).calls =
        (withRetryLoop fn base r₂ remaining attempt lastError acc₂).calls
      ∧ (withRetryLoop fn base r₁ remaining attempt lastError
          acc₁).delays.length =
        (withRetryLoop fn base r₂ remaining attempt lastError
          acc₂).delays.length := by
  intro remaining
  induction remaining with
  | zero =>
      intro attempt lastError acc₁ acc₂ hlen
      simp [withRetryLoop_zero, hlen]
  | succ remaining ih =>
      intro attempt lastError acc₁ acc₂ hlen
      cases hfn : fn attempt with
      | ok v =>
          rw [withRetryLoop_succ, withRetryLoop_succ, hfn]
          simp [hlen]
      | error e =>
          cases hf : isFatalError e with
          | true =>
              rw [withRetryLoop_step_fatal hfn hf,
                withRetryLoop_step_fatal hfn hf]
              simp [hlen]
          | false =>
              rw [withRetryLoop_step_nonfatal hfn hf,
                withRetryLoop_step_nonfatal hfn hf]
              exact ih (attempt + 1) (some e) _ _ (by simp [hlen])

/-!
## Lemmas about the indexed map `runItems`
-/

lemma runItems_length {A B : Type} (f : Nat → A → B) :
    ∀ (l : List A) (i : Nat), (runItems f i l).length = l.length := by
  intro l
  induction l with
  | nil => intro i; rfl
  | cons a rest ih => intro i; simp [runItems, ih]

lemma runItems_get {A B : Type} (f : Nat → A → B) :
    ∀ (l : List A) (i j : Nat),
      (runItems f i l).get? j = (l.get? j).map (f (i + j)) := by
  intro l
  induction l with
  | nil => intro i j; cases j <;> rfl
  | cons a rest ih =>
      intro i j
      cases j with
      | zero => simp [runItems]
      | succ j =>
          simp only [runItems, List.get?]
          rw [ih (i + 1) j]
          have h : i + 1 + j = i + (j + 1) := by omega
          rw [h]

/-!
## Claims about `withRetry` and `isFatalError`
-/

/-- C1: for every `maxAttempts = n ≥ 1` and every operation failing on all
invocations with a non-fatal error, `withRetry` invokes the operation
exactly `n` times and rejects with exactly the error observed on the `n`-th
attempt (the thrown value is that error object itself, not a wrapper). -/
theorem withRetry_allNonfatal_exhausts {V : Type} (err : Nat → ErrVal)
    (n : Nat) (base : ℚ) (rand : Nat → ℚ) (hn : 1 ≤ n)
    (hnf : ∀ k, isFatalError (err k) = false) :
    (withRetry (V := V) (fun k => Except.error (err k)) n base rand).calls = n
    ∧ (withRetry (V := V) (fun k => Except.error (err k)) n base
        rand).result = Except.error (some (err (n - 1))) := by
  obtain ⟨m, rfl⟩ : ∃ m, n = m + 1 := ⟨n - 1, by omega⟩
  obtain ⟨h₁, h₂, _⟩ := withRetryLoop_allFail (V := V) err base rand hnf m 0
    none []
  refine ⟨by rw [withRetry, h₂]; omega, ?_⟩
  rw [withRetry, h₁]
  have h : 0 + m = m + 1 - 1 := by omega
  rw [h]

/-- Witness for C1 at `n = 3` with a persistent 500 error. -/
theorem withRetry_allNonfatal_exhausts_witness :
    1 ≤ 3
    ∧ (∀ k : Nat, isFatalError ((fun _ => ErrVal.objStatus 500) k) = false)
    ∧ ((withRetry (V := Unit)
          (fun k => Except.error ((fun _ => ErrVal.objStatus 500) k)) 3 1000
          (fun _ => 0)).calls = 3
        ∧ (withRetry (V := Unit)
            (fun k => Except.error ((fun _ => ErrVal.objStatus 500) k)) 3 1000
            (fun _ => 0)).result =
          Except.error (some ((fun _ => ErrVal.objStatus 500) (3 - 1)))) :=
  ⟨by norm_num, fun _ => rfl,
    withRetry_allNonfatal_exhausts (V := Unit) (fun _ => ErrVal.objStatus 500)
      3 1000 (fun _ => 0) (by norm_num) (fun _ => rfl)⟩

/-- C3: a fatal error on the first attempt stops `withRetry` at once: the
operation is invoked exactly once regardless of `maxAttempts`, the same
error is propagated, and no backoff delay is awaited. -/
theorem withRetry_fatal_stopsImmediately {V : Type}
    (fn : Nat → Except ErrVal V) (n : Nat) (base : ℚ) (rand : Nat → ℚ)
    (e : ErrVal) (hn : 1 ≤ n) (h0 : fn 0 = Except.error e)
    (hf : isFatalError e = true) :
    withRetry fn n base rand =
      { result := Except.error (some e), calls := 1, delays := [] } := by
  obtain ⟨m, rfl⟩ : ∃ m, n = m + 1 := ⟨n - 1, by omega⟩
  rw [withRetry, withRetryLoop_step_fatal h0 hf]
  rfl

/-- Witness for C3: a 404 with `maxAttempts = 3` gives one call, no delay. -/
theorem withRetry_fatal_stopsImmediately_witness :
    1 ≤ 3
    ∧ (fun _ : Nat => (Except.error (ErrVal.objStatus 404) :
        Except ErrVal Unit)) 0 = Except.error (ErrVal.objStatus 404)
    ∧ isFatalError (ErrVal.objStatus 404) = true
    ∧ withRetry (V := Unit)
        (fun _ => Except.error (ErrVal.objStatus 404)) 3 1000 (fun _ => 0) =
      { result := Except.error (some (ErrVal.objStatus 404)), calls := 1,
        delays := [] } :=
  ⟨by norm_num, rfl, by decide,
    withRetry_fatal_stopsImmediately (V := Unit)
      (fun _ => Except.error (ErrVal.objStatus 404)) 3 1000 (fun _ => 0)
      (ErrVal.objStatus 404) (by norm_num) rfl (by decide)⟩

/-- C4: `isFatalError` returns `true` exactly on errors carrying a defined
numeric status code `c` with `400 ≤ c < 500` and `c ≠ 429`; in particular a
429, any 5xx, and every error without a status code (non-objects, objects
without the property, `undefined` values) are classified retriable. -/
theorem isFatalError_spec (e : ErrVal) :
    (isFatalError e = true ↔
      ∃ code : Int, e = ErrVal.objStatus code ∧ 400 ≤ code ∧ code < 500 ∧
        code ≠ 429)
    ∧ isFatalError (ErrVal.objStatus 429) = false
    ∧ (∀ code : Int, 500 ≤ code → isFatalError (ErrVal.objStatus code) = false)
    ∧ isFatalError ErrVal.nonObject = false
    ∧ isFatalError ErrVal.objNoStatus = false
    ∧ isFatalError ErrVal.objStatusUndefined = false := by
  refine ⟨?_, by decide, ?_, rfl, rfl, rfl⟩
  · cases e <;> simp [isFatalError]
  · intro code hc
    simp only [isFatalError, decide_eq_false_iff_not]
    omega

/-- Witness for C4 at a concrete 5xx code. -/
theorem isFatalError_spec_witness :
    (500 : Int) ≤ 500 ∧ isFatalError (ErrVal.objStatus 500) = false :=
  ⟨by norm_num, (isFatalError_spec (ErrVal.objStatus 500)).2.2.1 500
    (by norm_num)⟩

/-- C5 (the behavior the source actually has): `withRetry` with
`maxAttempts = 0` never invokes the operation and rejects with `undefined`
(the never-assigned `lastError`), not with a configuration error.  This
evaluates the embedded loop at the failing input of the claim. -/
theorem withRetry_zeroAttempts_throwsUndefined :
    withRetry (V := Nat) (fun _ => Except.ok 0) 0 1000 (fun _ => 0) =
      { result := Except.error none, calls := 0, delays := [] } := rfl

/-- C7 counterexample: with `maxAttempts = 1` and a single non-fatal
failure (a 500), `withRetry` makes its one allowed call, then awaits a full
backoff delay (`1000 * 2 ^ 1 * (1/2 + 0) = 1000` ms with jitter 0) even
though no further attempt can follow, and only then rejects.  This refutes
the claim that a backoff suspension happens only when another attempt will
follow. -/
theorem withRetry_delayAfterFinalAttempt_counterexample :
    (withRetry (V := Unit) (fun _ => Except.error (ErrVal.objStatus 500)) 1
        1000 (fun _ => 0)).calls = 1
    ∧ (withRetry (V := Unit) (fun _ => Except.error (ErrVal.objStatus 500)) 1
        1000 (fun _ => 0)).result =
      Except.error (some (ErrVal.objStatus 500))
    ∧ (withRetry (V := Unit) (fun _ => Except.error (ErrVal.objStatus 500)) 1
        1000 (fun _ => 0)).delays = [1000] := by
  refine ⟨rfl, rfl, ?_⟩
  show [(1000 : ℚ) * 2 ^ (0 + 1) * (1 / 2 + 0)] = [1000]
  norm_num

/-- C7 as amended: `withRetry` awaits one backoff delay after every
non-fatal failure, including the failure of the final allowed attempt — an
operation failing non-fatally on all `n` attempts causes exactly `n`
delays, the last of which is awaited after the last attempt, before the
last error is propagated. -/
theorem withRetry_delayAfterEveryNonfatalFailure {V : Type}
    (err : Nat → ErrVal) (n : Nat) (base : ℚ) (rand : Nat → ℚ) (hn : 1 ≤ n)
    (hnf : ∀ k, isFatalError (err k) = false) :
    (withRetry (V := V) (fun k => Except.error (err k)) n base
        rand).delays.length = n := by
  obtain ⟨m, rfl⟩ : ∃ m, n = m + 1 := ⟨n - 1, by omega⟩
  obtain ⟨_, _, h₃⟩ := withRetryLoop_allFail (V := V) err base rand hnf m 0
    none []
  rw [withRetry, h₃]
  simp

/-- Witness for the amended C7 at `n = 2`. -/
theorem withRetry_delayAfterEveryNonfatalFailure_witness :
    1 ≤ 2
    ∧ (∀ k : Nat, isFatalError ((fun _ => ErrVal.objStatus 500) k) = false)
    ∧ (withRetry (V := Unit)
        (fun k => Except.error ((fun _ => ErrVal.objStatus 500) k)) 2 1000
        (fun _ => 0)).delays.length = 2 :=
  ⟨by norm_num, fun _ => rfl,
    withRetry_delayAfterEveryNonfatalFailure (V := Unit)
      (fun _ => ErrVal.objStatus 500) 2 1000 (fun _ => 0) (by norm_num)
      (fun _ => rfl)⟩

/-- C6: the delay awaited after the `k`-th failed attempt (`k` counted from
1; equivalently index `i = k - 1` in the delay trace) equals
`baseDelayMs * 2 ^ k * (1/2 + r)` for the jitter draw `r ∈ [0, 1)` of that
failure, and hence lies in `[baseDelayMs * 2^k * 0.5, baseDelayMs * 2^k *
1.5)` whenever `baseDelayMs > 0`. -/
theorem withRetry_backoffDelay_bounds {V : Type} (fn : Nat → Except ErrVal V)
    (n : Nat) (base : ℚ) (rand : Nat → ℚ) (hbase : 0 < base)
    (hrand : ∀ j, 0 ≤ rand j ∧ rand j < 1) (i : Nat) (d : ℚ)
    (hd : (withRetry fn n base rand).delays.get? i = some d) :
    d = base * 2 ^ (i + 1) * (1 / 2 + rand i)
    ∧ base * 2 ^ (i + 1) * (1 / 2) ≤ d
    ∧ d < base * 2 ^ (i + 1) * (3 / 2) := by
  obtain ⟨tail, htail, hprop⟩ := withRetryLoop_delays fn base rand n 0 none []
  rw [withRetry] at hd
  rw [htail] at hd
  simp only [List.reverse_nil, List.nil_append] at hd
  have hform := hprop i d hd
  have h₁ : 0 + 1 + i = i + 1 := by omega
  have h₂ : 0 + i = i := by omega
  rw [h₁, h₂] at hform
  have hpos : (0 : ℚ) < base * 2 ^ (i + 1) := by positivity
  refine ⟨hform, ?_, ?_⟩
  · rw [hform]
    have := (hrand i).1
    nlinarith
  · rw [hform]
    have := (hrand i).2
    nlinarith

/-- Witness for C6: two failing attempts, `baseDelayMs = 1000`, jitter
`1/4`; the first recorded delay is `1000 * 2 * (1/2 + 1/4) = 1500`, inside
`[1000, 3000)`. -/
theorem withRetry_backoffDelay_bounds_witness :
    (0 : ℚ) < 1000
    ∧ ((1500 : ℚ) = 1000 * 2 ^ (0 + 1) * (1 / 2 + (fun _ : Nat => (1 / 4 : ℚ)) 0)
        ∧ 1000 * 2 ^ (0 + 1) * (1 / 2) ≤ (1500 : ℚ)
        ∧ (1500 : ℚ) < 1000 * 2 ^ (0 + 1) * (3 / 2)) :=
  ⟨by norm_num,
    withRetry_backoffDelay_bounds (V := Unit)
      (fun _ => Except.error (ErrVal.objStatus 500)) 2 1000
      (fun _ => (1 / 4 : ℚ)) (by norm_num) (fun _ => by norm_num) 0 1500
      (by
        show ([(1000 : ℚ) * 2 ^ (0 + 1) * (1 / 2 + 1 / 4),
            1000 * 2 ^ (1 + 1) * (1 / 2 + 1 / 4)].get? 0) = some 1500
        norm_num)⟩

/-- C9: two executions of `withRetry` that differ only in the jitter draws
invoke the operation the same number of times, settle with the same
outcome, and await the same number of delays: randomness influences only
the delay durations. -/
theorem withRetry_outcome_independent_of_jitter {V : Type}
    (fn : Nat → Except ErrVal V) (n : Nat) (base : ℚ) (r₁ r₂ : Nat → ℚ) :
    (withRetry fn n base r₁).result = (withRetry fn n base r₂).result
    ∧ (withRetry fn n base r₁).calls = (withRetry fn n base r₂).calls
    ∧ (withRetry fn n base r₁).delays.length =
      (withRetry fn n base r₂).delays.length :=
  withRetryLoop_rand_irrel fn base r₁ r₂ n 0 none [] [] rfl

/-!
## Claims about the batch tools
-/

/-- C2 counterexample: `downloadFilesTool` with two URLs and a one-element
`filenames` array resolves (it does not reject), but with a single
batch-level failure entry — a list of length 1 for an input of length 2, so
the claimed length/order invariant fails as stated.  (The setup `throw` is
caught by the outer `catch`, which replaces the whole per-item list.) -/
theorem batchResultLength_counterexample :
    (downloadFilesResults ["http://a/x", "http://b/y"] (some ["f"]) "/d"
        (fun _ => "g") (Except.ok ())
        (fun _ u p =>
          Except.ok
            { url := u, filepath := p, filename := "f", size := 1,
              success := true, error := none })).length = 1
    ∧ (["http://a/x", "http://b/y"] : List String).length = 2 := ⟨rfl, rfl⟩

/-- C2 as amended: `webPageTool` always resolves to a list of the same
length as the input, in input order, with each failed item present at its position as a
failure entry carrying its URL and an error message; `downloadFilesTool`
does the same provided the batch-level setup succeeds (directory creation
and writability check succeed, and `filenames`, when present, has the same
length as `urls`) — on a setup failure it still resolves, but with a single
failure entry instead of a per-item list. -/
theorem batchResultsCompleteAndOrdered (urls : List String)
    (fetch : Nat → String → Except String WebPageResult)
    (fns : Option (List String)) (directory : String)
    (extractName : String → String)
    (download : Nat → String → String → Except String DownloadResult)
    (hfns : ∀ l, fns = some l → l.length = urls.length)
    (hdl : ∀ i u p r, download i u p = Except.ok r →
      r.url = u ∧ r.success = true) :
    (webPageResults urls fetch).length = urls.length
    ∧ (∀ i url msg, urls.get? i = some url → fetch i url = Except.error msg →
        (webPageResults urls fetch).get? i = some (webErrorEntry url msg))
    ∧ (downloadFilesResults urls fns directory extractName (Except.ok ())
        download).length = urls.length
    ∧ (∀ i url, urls.get? i = some url →
        (downloadFilesResults urls fns directory extractName (Except.ok ())
            download).get? i =
          some (downloadItem (pathResolve directory) fns extractName download
            i url))
    ∧ (∀ i url, urls.get? i = some url →
        ∀ entry, entry = downloadItem (pathResolve directory) fns extractName
            download i url →
          entry.url = url ∧ (entry.success = false → entry.error.isSome)) := by
  have hitems : downloadFilesResults urls fns directory extractName
      (Except.ok ()) download =
      runItems (downloadItem (pathResolve directory) fns extractName download)
        0 urls := by
    cases hcase : fns with
    | none => rfl
    | some l => simp [downloadFilesResults, hfns l hcase]
  refine ⟨?_, ?_, ?_, ?_, ?_⟩
  · rw [webPageResults, runItems_length]
  · intro i url msg hurl hfetch
    rw [webPageResults, runItems_get, hurl]
    simp [hfetch]
  · rw [hitems, runItems_length]
  · intro i url hurl
    rw [hitems, runItems_get, hurl]
    simp
  · intro i url _hurl entry hentry
    rw [hentry, downloadItem]
    cases hchk : strStartsWith
        (pathResolve (pathResolve directory ++ "/" ++
          effectiveFilename fns extractName i url))
        (pathResolve directory) with
    | true =>
        simp only [hchk, if_true]
        cases hdlc : download i url (pathResolve (pathResolve directory ++
            "/" ++ effectiveFilename fns extractName i url)) with
        | ok r =>
            obtain ⟨hu, hs⟩ := hdl _ _ _ _ hdlc
            simp [hu, hs]
        | error msg => simp
    | false => simp [hchk]

/-- Concrete two-URL batch used by the witness of the amended C2. -/
def twoUrls : List String := ["http://a/x", "http://b/y"]

/-- Concrete fetch oracle for the witness: the first page loads, the second
fails. -/
def twoFetch : Nat → String → Except String WebPageResult := fun i url =>
  if i = 0 then
    Except.ok
      { url := url, title := "T", content := "C", images := none,
        links := none, metadata := ⟨none, none, none, none⟩, error := none }
  else Except.error "boom"

/-- Concrete download oracle for the witness: the first file downloads, the
second fails. -/
def twoDownload : Nat → String → String → Except String DownloadResult :=
  fun i u p =>
    if i = 0 then
      Except.ok
        { url := u, filepath := p, filename := "g", size := 3,
          success := true, error := none }
    else Except.error "HTTP 500: Internal Server Error"

/-- Witness for the amended C2: two URLs, the second page fetch and the
second download fail; both result lists have length 2 and carry the failed
items at their input positions with their URL and message. -/
theorem batchResultsCompleteAndOrdered_witness :
    (∀ l, (none : Option (List String)) = some l → l.length = twoUrls.length)
    ∧ (∀ i u p r, twoDownload i u p = Except.ok r →
        r.url = u ∧ r.success = true)
    ∧ ((webPageResults twoUrls twoFetch).length = twoUrls.length
      ∧ (∀ i url msg, twoUrls.get? i = some url →
          twoFetch i url = Except.error msg →
          (webPageResults twoUrls twoFetch).get? i =
            some (webErrorEntry url msg))
      ∧ (downloadFilesResults twoUrls none "/d" (fun _ => "g")
          (Except.ok ()) twoDownload).length = twoUrls.length
      ∧ (∀ i url, twoUrls.get? i = some url →
          (downloadFilesResults twoUrls none "/d" (fun _ => "g")
              (Except.ok ()) twoDownload).get? i =
            some (downloadItem (pathResolve "/d") none (fun _ => "g")
              twoDownload i url))
      ∧ (∀ i url, twoUrls.get? i = some url →
          ∀ entry, entry = downloadItem (pathResolve "/d") none
              (fun _ => "g") twoDownload i url →
            entry.url = url ∧ (entry.success = false →
              entry.error.isSome))) :=
  ⟨fun l h => Option.noConfusion h,
    by
      intro i u p r h
      by_cases hi : i = 0
      · simp [twoDownload, hi] at h
        rw [← h]
        exact ⟨rfl, rfl⟩
      · simp [twoDownload, hi] at h,
    batchResultsCompleteAndOrdered twoUrls twoFetch none "/d" (fun _ => "g")
      twoDownload (fun l h => Option.noConfusion h)
      (by
        intro i u p r h
        by_cases hi : i = 0
        · simp [twoDownload, hi] at h
          rw [← h]
          exact ⟨rfl, rfl⟩
        · simp [twoDownload, hi] at h)⟩

/-- C10: the traversal guard is a character-wise `startsWith`, so a sibling
directory whose name extends the name of the target directory defeats it.  With
target directory `/tmp/data` and custom filename `../data-evil/x`, the
joined path resolves to `/tmp/data-evil/x`, which lies outside `/tmp/data`
(its component path does not extend that of the directory), yet the string
check accepts it and the download is attempted — the tool returns the
(successful) download record pointing outside the directory, not the
`would escape directory` failure entry the claim requires. -/
theorem downloadTraversalCheck_bypassed :
    escapesDir (pathResolve "/tmp/data")
      (pathResolve (pathResolve "/tmp/data" ++ "/" ++ "../data-evil/x")) = true
    ∧ strStartsWith
        (pathResolve (pathResolve "/tmp/data" ++ "/" ++ "../data-evil/x"))
        (pathResolve "/tmp/data") = true
    ∧ downloadFilesResults ["http://h/f"] (some ["../data-evil/x"])
        "/tmp/data" (fun _ => "dl") (Except.ok ())
        (fun _ u p =>
          Except.ok
            { url := u, filepath := p, filename := "x", size := 7,
              success := true, error := none }) =
      [{ url := "http://h/f", filepath := "/tmp/data-evil/x",
          filename := "x", size := 7, success := true, error := none }] := by
  refine ⟨by decide, by decide, ?_⟩
  decide

end McpWebTools

